import Mathlib

/-!
# Attendance backend: request handlers over a relational store

A shallow embedding of `src/server.js` (the Express handlers and the SQL
statements they run) and of the pool created in `src/db.js`.

Modelling conventions.

* A value of a JSON request body, and a cell of a table, is a `JsVal`.  JSON
  numbers are modelled by integers; arrays and objects are one token `obj`
  (they are only ever tested for truthiness).
* The table declarations are not part of the repository.  The columns are the
  ones the statements name; a column has no declared type here, so a cell
  holds the value the driver writes for the parameter bound to it
  (`bindParam`): a string or a number as it is, a boolean as 1 or 0,
  `undefined` as `NULL`.  An array or an object is expanded by the driver into
  statement text; a one-element array stands for its element, and every other
  expansion makes a statement the database is taken to refuse (an object whose
  keys name columns is outside the model).  The generated key `id` of a row
  is an integer, and the route parameter `:id` is read as the integer it
  denotes.
* Text comparison in a statement (`a.status = 'Present'`, `ORDER BY`) is
  comparison of the strings themselves; rows that tie in an `ORDER BY` keep
  their order.
* Whether the database layer serves a call is decided by the environment and
  is an argument of every handler (`DbOutcome`): the layer either serves the
  call, or fails while a connection is being obtained, or fails while the
  statement runs (a violated constraint is such a failure).  Waiting for a
  free connection is outside the model.
* `World` is the state one request runs against: the tables, the number of
  connections checked out of the pool, and a counter of the calls made on the
  database layer.
* Logging (`console.log`, `console.error`) has no effect on a reply or on the
  state and is left out.
-/

namespace Attendance

/-! ## Values -/

/-- A JavaScript value as it arrives in a parsed JSON body or comes back in a
result row.  `arr1 x` is the one-element array `[x]`; `obj` stands for every
other array and for every plain object. -/
inductive JsVal where
  | undefined
  | null
  | bool (b : Bool)
  | num (n : Int)
  | str (s : String)
  | arr1 (item : JsVal)
  | obj
  deriving DecidableEq, Repr

/-- JavaScript truthiness, the test behind `!x`. -/
def JsVal.truthy : JsVal → Bool
  | .undefined => false
  | .null => false
  | .bool b => b
  | .num n => n != 0
  | .str s => s != ""
  | .arr1 _ => true
  | .obj => true

/-- The cell a bound parameter `?` stands for in a statement, as the driver
writes it: `undefined` and `null` as `NULL`, a boolean as `true` or `false`,
which the database holds as 1 or 0, a number and a string as themselves, a
one-element array as its element.  Any other array is written as a list of
several values (or of none) and a plain object as assignments `key = value`, so
the parameter is no longer one value: `none`. -/
def bindParam : JsVal → Option JsVal
  | .undefined => some .null
  | .null => some .null
  | .bool b => some (.num (if b then 1 else 0))
  | .num n => some (.num n)
  | .str s => some (.str s)
  | .arr1 x => bindParam x
  | .obj => none

/-- The value is a string or a number, which a statement stores as it is. -/
def JsVal.isStringOrNumber : JsVal → Bool
  | .num _ => true
  | .str _ => true
  | _ => false

/-- The comparison `cell = key` of a statement, for a generated integer key. -/
def sqlEqId (cell : JsVal) (key : Int) : Bool :=
  match cell with
  | .num n => n == key
  | .str s => s.toInt? == some key
  | _ => false

/-- Numeric reading of a cell for `SUM`; `none` is SQL `NULL`. -/
def sqlNum : JsVal → Option Int
  | .num n => some n
  | .str s => s.toInt?
  | _ => none

/-- Rank of a cell's kind in an ordering; `NULL` comes first. -/
def JsVal.rank : JsVal → Nat
  | .undefined => 0
  | .null => 0
  | .bool _ => 1
  | .num _ => 2
  | .str _ => 3
  | .arr1 _ => 4
  | .obj => 4

/-- Ascending order of cells used by `ORDER BY`. -/
def cellLe (a b : JsVal) : Bool :=
  match a, b with
  | .num x, .num y => decide (x ≤ y)
  | .str x, .str y => decide (x ≤ y)
  | x, y => decide (x.rank ≤ y.rank)

/-- Template-literal conversion of a value to text. -/
def JsVal.toText : JsVal → String
  | .undefined => "undefined"
  | .null => "null"
  | .bool b => if b then "true" else "false"
  | .num n => toString n
  | .str s => s
  | .arr1 .undefined => ""
  | .arr1 .null => ""
  | .arr1 x => x.toText
  | .obj => "[object Object]"

/-! ## Tables -/

/-- Modelled from the spec: a row of the `employees` table, whose declaration is
not in the repository; the columns are those of the data model and of the
`INSERT` statement. -/
structure Employee where
  id : Int
  name : JsVal
  employee_id : JsVal
  department : JsVal
  designation : JsVal
  deriving DecidableEq, Repr

/-- Modelled from the spec: a row of the `attendance` table, whose declaration
is not in the repository. -/
structure AttendanceRecord where
  id : Int
  employee_id : JsVal
  date : JsVal
  status : JsVal
  deriving DecidableEq, Repr

/-- Modelled from the spec: a row of the `overtime` table, whose declaration is
not in the repository. -/
structure OvertimeEntry where
  id : Int
  employee_id : JsVal
  date : JsVal
  hours : JsVal
  deriving DecidableEq, Repr

/-- The three tables, each with the counter its generated `id` comes from. -/
structure Db where
  employees : List Employee
  attendance : List AttendanceRecord
  overtime : List OvertimeEntry
  nextEmployeeId : Int
  nextAttendanceId : Int
  nextOvertimeId : Int
  deriving DecidableEq, Repr

/-- State a request runs against. -/
structure World where
  db : Db
  checkedOut : Nat
  dbCalls : Nat
  deriving DecidableEq, Repr

/-! ## Relational operators -/

/-- `l LEFT JOIN r ON cond`: every left row is kept; one without a match is
paired with `none`. -/
def leftJoin {α β : Type} (ls : List α) (rs : List β) (cond : α → β → Bool) :
    List (α × Option β) :=
  ls.flatMap fun l =>
    match rs.filter (cond l) with
    | [] => [(l, none)]
    | ms => ms.map fun r => (l, some r)

/-- `l JOIN r ON cond`. -/
def innerJoin {α β : Type} (ls : List α) (rs : List β) (cond : α → β → Bool) :
    List (α × β) :=
  ls.flatMap fun l => (rs.filter (cond l)).map fun r => (l, r)

/-- `SUM` over a column: `NULL` cells are skipped, and the sum of no cell is
`NULL`. -/
def sqlSum (cells : List (Option Int)) : Option Int :=
  match cells.filterMap id with
  | [] => none
  | xs => some xs.sum

/-- `COALESCE(x, d)`. -/
def coalesce (x : Option Int) (d : Int) : Int := x.getD d

/-! ## GET /report -/

/-- One row of the `FROM employees e LEFT JOIN attendance a LEFT JOIN overtime o`
product. -/
structure Joined where
  e : Employee
  a : Option AttendanceRecord
  o : Option OvertimeEntry
  deriving DecidableEq, Repr

/-- The joined rows of both report statements. -/
def joinedRows (db : Db) : List Joined :=
  (leftJoin
    (leftJoin db.employees db.attendance fun e a => sqlEqId a.employee_id e.id)
    db.overtime fun ea o => sqlEqId o.employee_id ea.1.id).map
    fun r => ⟨r.1.1, r.1.2, r.2⟩

/-- A row of the `/report` result. -/
structure ReportRow where
  employee_id : Int
  employee_name : JsVal
  total_present : Nat
  total_absent : Nat
  total_leave : Nat
  total_overtime : Int
  deriving DecidableEq, Repr

/-- `COUNT(CASE WHEN a.status = s THEN 1 ELSE NULL END)` over a group. -/
def countStatus (s : String) (group : List Joined) : Nat :=
  group.countP fun r =>
    match r.a with
    | some a => a.status == JsVal.str s
    | none => false

/-- `COALESCE(SUM(o.hours), 0)` over a group. -/
def sumHours (group : List Joined) : Int :=
  coalesce (sqlSum (group.map fun r => r.o.bind fun o => sqlNum o.hours)) 0

/-- The grouping key `e.id, e.name`. -/
def groupKey (r : Joined) : Int × JsVal := (r.e.id, r.e.name)

/-- The select list of `/report` evaluated on the group of one key. -/
def aggregate (rows : List Joined) (k : Int × JsVal) : ReportRow :=
  let group := rows.filter fun r => groupKey r == k
  { employee_id := k.1
    employee_name := k.2
    total_present := countStatus "Present" group
    total_absent := countStatus "Absent" group
    total_leave := countStatus "On Leave" group
    total_overtime := sumHours group }

/-- The `/report` statement: join, `GROUP BY e.id, e.name`, `ORDER BY e.name`. -/
def reportQuery (db : Db) : List ReportRow :=
  let rows := joinedRows db
  let keys := (rows.map groupKey).dedup
  (keys.map (aggregate rows)).insertionSort fun x y => cellLe x.employee_name y.employee_name

/-! ## Statements -/

/-- A row of the `GET /attendance` result. -/
structure AttendanceView where
  id : Int
  employee_name : JsVal
  date : JsVal
  status : JsVal
  deriving DecidableEq, Repr

/-- A row of the `GET /overtime` result. -/
structure OvertimeView where
  id : Int
  employee_name : JsVal
  date : JsVal
  hours : JsVal
  deriving DecidableEq, Repr

/-- A row of the `/download-report` statement; a missing side of a left join
reads as `null`. -/
structure ExportRow where
  employee_name : JsVal
  date : JsVal
  status : JsVal
  hours : JsVal
  deriving DecidableEq, Repr

/-- `SELECT * FROM employees`. -/
def selectEmployees (db : Db) : List Employee := db.employees

/-- `INSERT INTO employees (name, employee_id, department, designation) VALUES (?, ?, ?, ?)`;
the result is `insertId`. -/
def insertEmployee (name employee_id department designation : JsVal) (db : Db) :
    Option (Int × Db) :=
  match bindParam name, bindParam employee_id, bindParam department, bindParam designation with
  | some n, some i, some d, some g =>
    some (db.nextEmployeeId,
      { db with
        employees := db.employees ++ [⟨db.nextEmployeeId, n, i, d, g⟩]
        nextEmployeeId := db.nextEmployeeId + 1 })
  | _, _, _, _ => none

/-- `DELETE FROM employees WHERE id = ?`; the result is `affectedRows`. -/
def deleteEmployeeRows (id : Int) (db : Db) : Option (Nat × Db) :=
  some ((db.employees.filter fun e => e.id == id).length,
    { db with employees := db.employees.filter fun e => !(e.id == id) })

/-- The `GET /attendance` statement: attendance joined with employees,
`ORDER BY attendance.date DESC`. -/
def selectAttendance (db : Db) : List AttendanceView :=
  ((innerJoin db.attendance db.employees fun a e => sqlEqId a.employee_id e.id).map
    fun r => (⟨r.1.id, r.2.name, r.1.date, r.1.status⟩ : AttendanceView)).insertionSort
    fun x y => cellLe y.date x.date

/-- `INSERT INTO attendance (employee_id, date, status) VALUES (?, ?, ?)`. -/
def insertAttendance (employee_id date status : JsVal) (db : Db) : Option (Int × Db) :=
  match bindParam employee_id, bindParam date, bindParam status with
  | some e, some d, some s =>
    some (db.nextAttendanceId,
      { db with
        attendance := db.attendance ++ [⟨db.nextAttendanceId, e, d, s⟩]
        nextAttendanceId := db.nextAttendanceId + 1 })
  | _, _, _ => none

/-- `UPDATE attendance SET status = ? WHERE id = ?`; the result is
`affectedRows`, which the driver reports as the number of rows matched. -/
def updateAttendanceStatus (status : JsVal) (id : Int) (db : Db) : Option (Nat × Db) :=
  match bindParam status with
  | some s =>
    some ((db.attendance.filter fun a => a.id == id).length,
      { db with
        attendance := db.attendance.map fun a =>
          if a.id == id then { a with status := s } else a })
  | none => none

/-- `DELETE FROM attendance WHERE id = ?`. -/
def deleteAttendanceRows (id : Int) (db : Db) : Option (Nat × Db) :=
  some ((db.attendance.filter fun a => a.id == id).length,
    { db with attendance := db.attendance.filter fun a => !(a.id == id) })

/-- The `GET /overtime` statement: overtime joined with employees. -/
def selectOvertime (db : Db) : List OvertimeView :=
  (innerJoin db.overtime db.employees fun o e => sqlEqId o.employee_id e.id).map
    fun r => ⟨r.1.id, r.2.name, r.1.date, r.1.hours⟩

/-- `INSERT INTO overtime (employee_id, date, hours) VALUES (?, ?, ?)`. -/
def insertOvertime (employee_id date hours : JsVal) (db : Db) : Option (Int × Db) :=
  match bindParam employee_id, bindParam date, bindParam hours with
  | some e, some d, some h =>
    some (db.nextOvertimeId,
      { db with
        overtime := db.overtime ++ [⟨db.nextOvertimeId, e, d, h⟩]
        nextOvertimeId := db.nextOvertimeId + 1 })
  | _, _, _ => none

/-- `DELETE FROM overtime WHERE id = ?`. -/
def deleteOvertimeRows (id : Int) (db : Db) : Option (Nat × Db) :=
  some ((db.overtime.filter fun o => o.id == id).length,
    { db with overtime := db.overtime.filter fun o => !(o.id == id) })

/-- A column of an optional joined row, `null` when the row is missing. -/
def cellOf {α : Type} (r : Option α) (col : α → JsVal) : JsVal :=
  match r with
  | some x => col x
  | none => .null

/-- The `/download-report` statement: the joined rows,
`ORDER BY attendance.date DESC`. -/
def exportQuery (db : Db) : List ExportRow :=
  ((joinedRows db).map fun r =>
    (⟨r.e.name, cellOf r.a (·.date), cellOf r.a (·.status), cellOf r.o (·.hours)⟩ :
      ExportRow)).insertionSort
    fun x y => cellLe y.date x.date

/-! ## The pool -/

/-- What the database layer does with the calls of one request. -/
inductive DbOutcome where
  | ok
  | connectFail (msg : String)
  | queryFail (msg : String)
  deriving DecidableEq, Repr

/-- The message of the error raised for a statement that a parameter has
turned into something the database refuses; its wording is not modelled. -/
def refusedStatement : String := "ER_PARSE_ERROR"

/-- `pool.query(sql, params)`: the pool takes a connection, runs the statement
and takes the connection back whether or not the statement failed.  A
statement is a function of the tables; it is `none` when a parameter is not
written as one value, and the database then refuses it. -/
def poolQuery {ρ : Type} (out : DbOutcome) (stmt : Db → Option (ρ × Db)) (w : World) :
    Except String ρ × World :=
  match out with
  | .ok =>
    match stmt w.db with
    | some (r, db) => (.ok r, { w with db := db, dbCalls := w.dbCalls + 1 })
    | none => (.error refusedStatement, { w with dbCalls := w.dbCalls + 1 })
  | .connectFail m => (.error m, { w with dbCalls := w.dbCalls + 1 })
  | .queryFail m => (.error m, { w with dbCalls := w.dbCalls + 1 })

/-- `pool.getConnection()`: one more connection is checked out unless the
call fails. -/
def getConnection (out : DbOutcome) (w : World) : Except String Unit × World :=
  match out with
  | .connectFail m => (.error m, { w with dbCalls := w.dbCalls + 1 })
  | _ => (.ok (), { w with checkedOut := w.checkedOut + 1, dbCalls := w.dbCalls + 1 })

/-- `connection.query(sql, params)` on a connection already checked out. -/
def connectionQuery {ρ : Type} (out : DbOutcome) (stmt : Db → Option (ρ × Db)) (w : World) :
    Except String ρ × World :=
  match out with
  | .ok =>
    match stmt w.db with
    | some (r, db) => (.ok r, { w with db := db, dbCalls := w.dbCalls + 1 })
    | none => (.error refusedStatement, { w with dbCalls := w.dbCalls + 1 })
  | .connectFail m => (.error m, { w with dbCalls := w.dbCalls + 1 })
  | .queryFail m => (.error m, { w with dbCalls := w.dbCalls + 1 })

/-- `connection.release()`. -/
def release (w : World) : World := { w with checkedOut := w.checkedOut - 1 }

/-- The start-up check of `db.js`: a connection is taken and given back. -/
def startupCheck (out : DbOutcome) (w : World) : World :=
  match getConnection out w with
  | (.ok _, w1) => release w1
  | (.error _, w1) => w1

/-- A statement that only reads. -/
def reading {ρ : Type} (q : Db → ρ) (db : Db) : Option (ρ × Db) := some (q db, db)

/-! ## Replies -/

/-- The JSON payloads the handlers send. -/
inductive Body where
  | employees (rows : List Employee)
  | attendance (rows : List AttendanceView)
  | overtime (rows : List OvertimeView)
  | report (rows : List ReportRow)
  | message (text : String)
  | created (text : String) (id : Int)
  | error (text : String) (details : Option String)
  deriving DecidableEq, Repr

/-- What a handler does with a request: answer with `res.status(..).json(..)`
(`res.json` alone answers 200), hand the error to the framework with
`next(error)`, or send a file with `res.download`. -/
inductive Reply where
  | json (status : Nat) (body : Body)
  | next (err : String)
  | download (path : String) (filename : String) (document : List String)
  deriving DecidableEq, Repr

/-- The status code a handler set itself, if it answered with JSON. -/
def Reply.status : Reply → Option Nat
  | .json s _ => some s
  | _ => none

/-! ## Request bodies -/

/-- Body of `POST /employees`. -/
structure EmployeeBody where
  name : JsVal
  employee_id : JsVal
  department : JsVal
  designation : JsVal
  deriving DecidableEq, Repr

/-- Body of `POST /attendance`; a missing field is `undefined`. -/
structure AttendanceBody where
  employee_id : JsVal
  date : JsVal
  status : JsVal
  deriving DecidableEq, Repr

/-- Body of `PUT /attendance/:id`. -/
structure StatusBody where
  status : JsVal
  deriving DecidableEq, Repr

/-- Body of `POST /overtime`. -/
structure OvertimeBody where
  employee_id : JsVal
  date : JsVal
  hours : JsVal
  deriving DecidableEq, Repr

/-! ## Handlers -/

/-- `GET /employees`. -/
def getEmployees (out : DbOutcome) (w : World) : Reply × World :=
  match poolQuery out (reading selectEmployees) w with
  | (.ok employees, w1) => (.json 200 (.employees employees), w1)
  | (.error _, w1) => (.json 500 (.error "Internal Server Error" none), w1)

/-- `POST /employees`. -/
def postEmployees (body : EmployeeBody) (out : DbOutcome) (w : World) : Reply × World :=
  match poolQuery out
      (insertEmployee body.name body.employee_id body.department body.designation) w with
  | (.ok insertId, w1) => (.json 200 (.created "Employee added successfully!" insertId), w1)
  | (.error _, w1) => (.json 500 (.error "Database error" none), w1)

/-- `DELETE /employees/:id`. -/
def deleteEmployee (id : Int) (out : DbOutcome) (w : World) : Reply × World :=
  match poolQuery out (deleteEmployeeRows id) w with
  | (.ok affectedRows, w1) =>
    if affectedRows == 0 then (.json 404 (.error "Employee not found" none), w1)
    else (.json 200 (.message "Employee deleted successfully"), w1)
  | (.error _, w1) => (.json 500 (.error "Database error" none), w1)

/-- `GET /attendance`. -/
def getAttendance (out : DbOutcome) (w : World) : Reply × World :=
  match poolQuery out (reading selectAttendance) w with
  | (.ok rows, w1) => (.json 200 (.attendance rows), w1)
  | (.error m, w1) => (.json 500 (.error "Internal Server Error" (some m)), w1)

/-- `POST /attendance`. -/
def postAttendance (body : AttendanceBody) (out : DbOutcome) (w : World) : Reply × World :=
  if !body.employee_id.truthy || !body.date.truthy || !body.status.truthy then
    (.json 400 (.error "Missing required fields" none), w)
  else
    match getConnection out w with
    | (.error _, w1) => (.json 500 (.error "Internal Server Error" none), w1)
    | (.ok _, w1) =>
      match connectionQuery out (insertAttendance body.employee_id body.date body.status) w1 with
      | (.error _, w2) => (.json 500 (.error "Internal Server Error" none), w2)
      | (.ok _, w2) => (.json 200 (.message "Attendance added successfully"), release w2)

/-- `PUT /attendance/:id`. -/
def putAttendance (id : Int) (body : StatusBody) (out : DbOutcome) (w : World) :
    Reply × World :=
  if !body.status.truthy then
    (.json 400 (.error "Status is required" none), w)
  else
    match poolQuery out (updateAttendanceStatus body.status id) w with
    | (.ok affectedRows, w1) =>
      if affectedRows == 0 then (.json 404 (.error "Attendance record not found" none), w1)
      else (.json 200 (.message "Attendance updated successfully!"), w1)
    | (.error _, w1) => (.json 500 (.error "Internal Server Error" none), w1)

/-- `DELETE /attendance/:id`. -/
def deleteAttendance (id : Int) (out : DbOutcome) (w : World) : Reply × World :=
  match poolQuery out (deleteAttendanceRows id) w with
  | (.ok affectedRows, w1) =>
    if affectedRows == 0 then (.json 404 (.error "Attendance record not found" none), w1)
    else (.json 200 (.message "Attendance record deleted successfully!"), w1)
  | (.error _, w1) => (.json 500 (.error "Internal Server Error" none), w1)

/-- `GET /overtime`: a failure is passed to `next`. -/
def getOvertime (out : DbOutcome) (w : World) : Reply × World :=
  match poolQuery out (reading selectOvertime) w with
  | (.ok rows, w1) => (.json 200 (.overtime rows), w1)
  | (.error m, w1) => (.next m, w1)

/-- `POST /overtime`. -/
def postOvertime (body : OvertimeBody) (out : DbOutcome) (w : World) : Reply × World :=
  if !body.employee_id.truthy || !body.date.truthy || !body.hours.truthy then
    (.json 400 (.error "Please provide all fields: employee_id, date, and hours." none), w)
  else
    match poolQuery out (insertOvertime body.employee_id body.date body.hours) w with
    | (.ok insertId, w1) => (.json 200 (.created "Overtime added successfully!" insertId), w1)
    | (.error m, w1) =>
      (.json 500 (.error "Database error while adding overtime." (some m)), w1)

/-- `DELETE /overtime/:id`. -/
def deleteOvertime (id : Int) (out : DbOutcome) (w : World) : Reply × World :=
  match poolQuery out (deleteOvertimeRows id) w with
  | (.ok affectedRows, w1) =>
    if affectedRows == 0 then (.json 404 (.error "Overtime entry not found." none), w1)
    else (.json 200 (.message "Overtime entry deleted successfully!"), w1)
  | (.error m, w1) => (.json 500 (.error "Internal Server Error" (some m)), w1)

/-- `GET /report`. -/
def getReport (out : DbOutcome) (w : World) : Reply × World :=
  match getConnection out w with
  | (.error _, w1) => (.json 500 (.error "Internal Server Error" none), w1)
  | (.ok _, w1) =>
    match connectionQuery out (reading reportQuery) w1 with
    | (.error _, w2) => (.json 500 (.error "Internal Server Error" none), w2)
    | (.ok results, w2) => (.json 200 (.report results), release w2)

/-! ## GET /download-report -/

/-- Names bound at the top level of `server.js` (its `const` declarations). -/
def moduleBindings : List String :=
  ["express", "dotenv", "cors", "pool", "app", "PORT"]

/-- Names the runtime provides inside every module. -/
def runtimeGlobals : List String :=
  ["require", "module", "exports", "__filename", "__dirname", "console", "process",
   "globalThis", "global", "Buffer", "setTimeout", "setInterval", "setImmediate"]

/-- Evaluation of a free identifier of a handler body: a name bound nowhere
throws a `ReferenceError`. -/
def lookupIdent (x : String) : Except String Unit :=
  if x ∈ moduleBindings ++ runtimeGlobals then .ok () else .error (x ++ " is not defined")

/-- The line group written for one row, `index` counted from 0. -/
def rowLines (index : Nat) (row : ExportRow) : List String :=
  [toString (index + 1) ++ ". " ++ row.employee_name.toText,
   "Date: " ++ row.date.toText,
   "Attendance: " ++ row.status.toText,
   "Overtime Hours: " ++ (if row.hours.truthy then row.hours else JsVal.str "0").toText,
   ""]

/-- The text written into the document: the title, a blank line, and one
line group per row. -/
def renderDocument (results : List ExportRow) : List String :=
  ["Attendance & Overtime Report", ""] ++
    results.enum.flatMap fun ir => rowLines ir.1 ir.2

/-- The part of the handler after the connection is released: it builds the
document with `new PDFDocument()` and `fs.createWriteStream`, then sends the
file. -/
def generatePdf (results : List ExportRow) : Except String Reply :=
  match lookupIdent "PDFDocument" with
  | .error e => .error e
  | .ok _ =>
    match lookupIdent "fs" with
    | .error e => .error e
    | .ok _ => .ok (.download "report.pdf" "report.pdf" (renderDocument results))

/-- `GET /download-report`. -/
def getDownloadReport (out : DbOutcome) (w : World) : Reply × World :=
  match getConnection out w with
  | (.error _, w1) => (.json 500 (.error "Internal Server Error" none), w1)
  | (.ok _, w1) =>
    match connectionQuery out (reading exportQuery) w1 with
    | (.error _, w2) => (.json 500 (.error "Internal Server Error" none), w2)
    | (.ok results, w2) =>
      match generatePdf results with
      | .error _ => (.json 500 (.error "Internal Server Error" none), release w2)
      | .ok reply => (reply, release w2)

/-! ## Routing -/

/-- The requests the service routes. -/
inductive Request where
  | getEmployees
  | postEmployees (body : EmployeeBody)
  | deleteEmployee (id : Int)
  | getAttendance
  | postAttendance (body : AttendanceBody)
  | putAttendance (id : Int) (body : StatusBody)
  | deleteAttendance (id : Int)
  | getOvertime
  | postOvertime (body : OvertimeBody)
  | deleteOvertime (id : Int)
  | getReport
  | getDownloadReport
  deriving DecidableEq, Repr

/-- Dispatch of a request to its handler. -/
def handle (req : Request) (out : DbOutcome) (w : World) : Reply × World :=
  match req with
  | .getEmployees => getEmployees out w
  | .postEmployees body => postEmployees body out w
  | .deleteEmployee id => deleteEmployee id out w
  | .getAttendance => getAttendance out w
  | .postAttendance body => postAttendance body out w
  | .putAttendance id body => putAttendance id body out w
  | .deleteAttendance id => deleteAttendance id out w
  | .getOvertime => getOvertime out w
  | .postOvertime body => postOvertime body out w
  | .deleteOvertime id => deleteOvertime id out w
  | .getReport => getReport out w
  | .getDownloadReport => getDownloadReport out w

/-- The handler of the request gets as far as a call on the database layer:
the body passes the handler's check of its required fields. -/
def reachesDatabase : Request → Bool
  | .postAttendance body =>
    body.employee_id.truthy && body.date.truthy && body.status.truthy
  | .putAttendance _ body => body.status.truthy
  | .postOvertime body =>
    body.employee_id.truthy && body.date.truthy && body.hours.truthy
  | _ => true

/-! ## Predicates used in the statements -/

/-- The error texts the handlers answer a failed database call with. -/
def genericMessages : List String :=
  ["Internal Server Error", "Database error", "Database error while adding overtime."]

/-- How `PUT /attendance/:id` with a given status may change one attendance
row: its key, employee and date stay; its status becomes the submitted value
when its id is the target, and otherwise the whole row stays. -/
def StatusOnly (id : Int) (status : JsVal) (old new : AttendanceRecord) : Prop :=
  new.id = old.id ∧ new.employee_id = old.employee_id ∧ new.date = old.date ∧
    (old.id = id → new.status = status) ∧ (old.id ≠ id → new = old)

/-- The employee keys are distinct and below the auto-increment counter. -/
def KeysFresh (db : Db) : Prop :=
  (db.employees.map (·.id)).Nodup ∧ ∀ e ∈ db.employees, e.id < db.nextEmployeeId

/-- The attendance rows of an employee. -/
def attendanceOf (db : Db) (e : Employee) : List AttendanceRecord :=
  db.attendance.filter fun a => sqlEqId a.employee_id e.id

/-- The overtime rows of an employee. -/
def overtimeOf (db : Db) (e : Employee) : List OvertimeEntry :=
  db.overtime.filter fun o => sqlEqId o.employee_id e.id

/-- The report row in the words of the specification: the number of the
employee's attendance rows of each status, and the sum of the hours of the
employee's overtime rows. -/
def specReportRow (db : Db) (e : Employee) : ReportRow :=
  { employee_id := e.id
    employee_name := e.name
    total_present := (attendanceOf db e).countP fun a => a.status == JsVal.str "Present"
    total_absent := (attendanceOf db e).countP fun a => a.status == JsVal.str "Absent"
    total_leave := (attendanceOf db e).countP fun a => a.status == JsVal.str "On Leave"
    total_overtime := ((overtimeOf db e).filterMap fun o => sqlNum o.hours).sum }

/-- The right-hand side of a left join for one left row: the matches, or one
missing row when there is none. -/
def optRows {β : Type} (ms : List β) : List (Option β) :=
  match ms with
  | [] => [none]
  | ms => ms.map some

/-- The joined rows that stem from one employee. -/
def rowsOf (db : Db) (e : Employee) : List Joined :=
  (optRows (attendanceOf db e)).flatMap fun a =>
    (optRows (overtimeOf db e)).map fun o => ⟨e, a, o⟩

/-! ## Sample states and requests -/

/-- A database with no rows. -/
def emptyDb : Db :=
  { employees := [], attendance := [], overtime := []
    nextEmployeeId := 1, nextAttendanceId := 1, nextOvertimeId := 1 }

/-- A state with no connection checked out and no call made yet. -/
def idle (db : Db) : World := { db := db, checkedOut := 0, dbCalls := 0 }

/-- The attendance body of the specification's example. -/
def sampleAttendance : AttendanceBody :=
  { employee_id := .num 1, date := .str "2024-01-01", status := .str "Present" }

/-- One employee X (id 1) with attendance `Present, Present, Absent, On Leave`
and overtime hours 2 and 3. -/
def sampleDb : Db :=
  { employees := [⟨1, .str "X", .str "E1", .str "Ops", .str "Clerk"⟩]
    attendance := [⟨1, .num 1, .str "2024-01-01", .str "Present"⟩,
                   ⟨2, .num 1, .str "2024-01-02", .str "Present"⟩,
                   ⟨3, .num 1, .str "2024-01-03", .str "Absent"⟩,
                   ⟨4, .num 1, .str "2024-01-04", .str "On Leave"⟩]
    overtime := [⟨1, .num 1, .str "2024-01-01", .num 2⟩,
                 ⟨2, .num 1, .str "2024-01-02", .num 3⟩]
    nextEmployeeId := 2, nextAttendanceId := 5, nextOvertimeId := 3 }

/-- The tables of `sampleDb` with a second employee Y (id 2) who has no
attendance and no overtime row. -/
def staffDb : Db :=
  { sampleDb with
    employees := sampleDb.employees ++ [⟨2, .str "Y", .str "E2", .str "Ops", .str "Clerk"⟩]
    nextEmployeeId := 3 }

/-! ## Theorems -/

/-- A served `pool.query` whose statement the database accepts. -/
theorem poolQuery_ok {ρ : Type} (stmt : Db → Option (ρ × Db)) (w : World) (r : ρ) (db : Db)
    (h : stmt w.db = some (r, db)) :
    poolQuery .ok stmt w = (.ok r, { w with db := db, dbCalls := w.dbCalls + 1 }) := by
  simp only [poolQuery, h]

/-- A served `connection.query` whose statement the database accepts. -/
theorem connectionQuery_ok {ρ : Type} (stmt : Db → Option (ρ × Db)) (w : World) (r : ρ)
    (db : Db) (h : stmt w.db = some (r, db)) :
    connectionQuery .ok stmt w = (.ok r, { w with db := db, dbCalls := w.dbCalls + 1 }) := by
  simp only [connectionQuery, h]

/-- A string or a number is bound as itself. -/
theorem bindParam_of_isStringOrNumber (v : JsVal) (h : v.isStringOrNumber = true) :
    bindParam v = some v := by
  cases v <;> simp_all [bindParam, JsVal.isStringOrNumber]

/-- C3: a `POST /attendance` body in which one of `employee_id`, `date`,
`status` is falsy is answered with 400, whatever the database layer would do,
and the state is left as it was: no call on the database layer and the same
tables. -/
theorem postAttendance_missing_field (body : AttendanceBody) (out : DbOutcome) (w : World)
    (h : body.employee_id.truthy = false ∨ body.date.truthy = false ∨
      body.status.truthy = false) :
    postAttendance body out w = (.json 400 (.error "Missing required fields" none), w) := by
  unfold postAttendance
  rcases h with h | h | h <;> simp [h]

/-- C3 at a body without `status`, while the database is down. -/
theorem postAttendance_missing_field_witness :
    postAttendance ⟨.num 1, .str "2024-01-01", .undefined⟩ (.queryFail "down") (idle sampleDb) =
      (.json 400 (.error "Missing required fields" none), idle sampleDb) :=
  postAttendance_missing_field ⟨.num 1, .str "2024-01-01", .undefined⟩ (.queryFail "down")
    (idle sampleDb) (by decide)

/-- C10 (fails on the code): when the statement fails on a connection taken
with `pool.getConnection()`, the handlers of `POST /attendance`, `GET /report`
and `GET /download-report` leave that connection checked out: in every state
the count after the request is one more than before it. -/
theorem connection_leaked_on_query_failure (msg : String) (w : World) :
    (postAttendance sampleAttendance (.queryFail msg) w).2.checkedOut = w.checkedOut + 1 ∧
      (getReport (.queryFail msg) w).2.checkedOut = w.checkedOut + 1 ∧
      (getDownloadReport (.queryFail msg) w).2.checkedOut = w.checkedOut + 1 := by
  refine ⟨?_, rfl, rfl⟩
  simp [postAttendance, sampleAttendance, JsVal.truthy, getConnection, connectionQuery]

/-- C7 (fails on the code): with no row in any table the export statement
returns no row, the database call succeeds, and `GET /download-report` answers
500 `Internal Server Error`, as it does in every state: `PDFDocument` is bound
nowhere in the module. -/
theorem downloadReport_empty_is_500 :
    exportQuery emptyDb = [] ∧
      "PDFDocument" ∉ moduleBindings ++ runtimeGlobals ∧
      (getDownloadReport .ok (idle emptyDb)).1 =
        .json 500 (.error "Internal Server Error" none) ∧
      ∀ w : World, (getDownloadReport .ok w).1 =
        .json 500 (.error "Internal Server Error" none) := by
  refine ⟨by decide, by decide, by decide, fun w => rfl⟩

/-- C8: `POST /overtime` answers 400 exactly when one of `employee_id`, `date`,
`hours` is falsy, and then the state is left as it was (no call on the
database layer, no row inserted); in particular a body whose `hours` is the
number 0 is answered with 400 whatever its other fields are. -/
theorem postOvertime_400_iff_falsy (body : OvertimeBody) (out : DbOutcome) (w : World) :
    ((postOvertime body out w).1.status = some 400 ↔
        (body.employee_id.truthy = false ∨ body.date.truthy = false ∨
          body.hours.truthy = false)) ∧
      ((postOvertime body out w).1.status = some 400 → (postOvertime body out w).2 = w) ∧
      postOvertime { body with hours := .num 0 } out w =
        (.json 400 (.error "Please provide all fields: employee_id, date, and hours." none),
          w) := by
  refine ⟨?_, ?_, ?_⟩
  · unfold postOvertime
    cases h1 : body.employee_id.truthy <;> cases h2 : body.date.truthy <;>
      cases h3 : body.hours.truthy <;> simp [Reply.status]
    cases out <;> simp only [poolQuery]
    · cases insertOvertime body.employee_id body.date body.hours w.db <;> simp [Reply.status]
    · simp [Reply.status]
    · simp [Reply.status]
  · unfold postOvertime
    cases h1 : body.employee_id.truthy <;> cases h2 : body.date.truthy <;>
      cases h3 : body.hours.truthy <;> simp [Reply.status]
    cases out <;> simp only [poolQuery]
    · cases insertOvertime body.employee_id body.date body.hours w.db <;> simp [Reply.status]
    · simp [Reply.status]
    · simp [Reply.status]
  · simp [postOvertime, JsVal.truthy]

/-- C9 (fails on the code): when the database call of `GET /overtime` fails the
handler sends no reply of its own, so no status 500 and no JSON body with an
`error` field come from it; it passes the error to `next`. -/
theorem getOvertime_failure_goes_to_next :
    (handle .getOvertime (.queryFail "ECONNRESET") (idle emptyDb)).1 = .next "ECONNRESET" ∧
      (handle .getOvertime (.queryFail "ECONNRESET") (idle emptyDb)).1.status = none ∧
      (handle .getOvertime (.connectFail "ECONNREFUSED") (idle emptyDb)).1 =
        .next "ECONNREFUSED" := by
  decide

/-- What the handlers do with a failed database call: every handler other than
that of `GET /overtime` answers 500 with a JSON body whose `error` field is
one of the generic messages; the handler of `GET /overtime` passes the error
to `next`. -/
theorem failed_call_is_500_json (req : Request) (out : DbOutcome) (w : World)
    (hfail : out ≠ .ok) (hdb : reachesDatabase req = true) :
    (req ≠ .getOvertime →
        ∃ text details, text ∈ genericMessages ∧
          (handle req out w).1 = .json 500 (.error text details)) ∧
      (req = .getOvertime → ∃ err, (handle req out w).1 = .next err) := by
  constructor
  · intro hreq
    cases req <;> cases out <;>
      simp_all [handle, reachesDatabase, getEmployees, postEmployees, deleteEmployee,
        getAttendance, postAttendance, putAttendance, deleteAttendance, postOvertime,
        deleteOvertime, getReport, getDownloadReport, poolQuery, getConnection,
        connectionQuery, genericMessages]
  · intro hreq
    subst hreq
    cases out <;> simp_all [handle, getOvertime, poolQuery]

/-- The failed insert of a `POST /overtime` is answered with 500 and JSON. -/
theorem failed_call_is_500_json_witness :
    (Request.postOvertime ⟨.num 1, .str "2024-01-01", .num 2⟩ ≠ .getOvertime →
        ∃ text details, text ∈ genericMessages ∧
          (handle (.postOvertime ⟨.num 1, .str "2024-01-01", .num 2⟩) (.queryFail "down")
            (idle sampleDb)).1 = .json 500 (.error text details)) ∧
      (Request.postOvertime ⟨.num 1, .str "2024-01-01", .num 2⟩ = .getOvertime →
        ∃ err, (handle (.postOvertime ⟨.num 1, .str "2024-01-01", .num 2⟩) (.queryFail "down")
          (idle sampleDb)).1 = .next err) :=
  failed_call_is_500_json (.postOvertime ⟨.num 1, .str "2024-01-01", .num 2⟩)
    (.queryFail "down") (idle sampleDb) (by decide) (by decide)

/-- The `affectedRows` of a statement `WHERE id = ?` is zero exactly when no
row has that id. -/
theorem affected_zero_iff {α : Type} (f : α → Int) (id : Int) (l : List α) :
    ((l.filter fun x => f x == id).length == 0) = true ↔ ∀ x ∈ l, f x ≠ id := by
  rw [beq_iff_eq, List.length_eq_zero, List.filter_eq_nil_iff]
  simp

/-- C5: when the statement succeeds, `DELETE /employees/:id` answers 404
exactly when no employee row has that id; otherwise it answers 200 and the
following `GET /employees` lists exactly the employee rows with another id.
`DELETE /attendance/:id` and `DELETE /overtime/:id` answer 404 under the same
rule and 200 otherwise. -/
theorem delete_404_iff_no_row (id : Int) (w : World) :
    ((deleteEmployee id .ok w).1.status = some 404 ↔ ∀ e ∈ w.db.employees, e.id ≠ id) ∧
      ((∃ e ∈ w.db.employees, e.id = id) →
        (deleteEmployee id .ok w).1 = .json 200 (.message "Employee deleted successfully") ∧
        ∃ rows, (getEmployees .ok (deleteEmployee id .ok w).2).1 = .json 200 (.employees rows) ∧
          ∀ e, e ∈ rows ↔ (e ∈ w.db.employees ∧ e.id ≠ id)) ∧
      ((deleteAttendance id .ok w).1.status = some 404 ↔ ∀ a ∈ w.db.attendance, a.id ≠ id) ∧
      ((∃ a ∈ w.db.attendance, a.id = id) → (deleteAttendance id .ok w).1.status = some 200) ∧
      ((deleteOvertime id .ok w).1.status = some 404 ↔ ∀ o ∈ w.db.overtime, o.id ≠ id) ∧
      ((∃ o ∈ w.db.overtime, o.id = id) → (deleteOvertime id .ok w).1.status = some 200) := by
  have hE := affected_zero_iff (fun e : Employee => e.id) id w.db.employees
  have hA := affected_zero_iff (fun a : AttendanceRecord => a.id) id w.db.attendance
  have hO := affected_zero_iff (fun o : OvertimeEntry => o.id) id w.db.overtime
  refine ⟨?_, ?_, ?_, ?_, ?_, ?_⟩
  · simp only [deleteEmployee, poolQuery, deleteEmployeeRows]
    split_ifs with h
    · simpa [Reply.status] using hE.1 h
    · simpa [Reply.status] using fun hall => h (hE.2 hall)
  · rintro ⟨e, he, hid⟩
    have h : ¬ ((w.db.employees.filter fun x => x.id == id).length == 0) = true :=
      fun h => hE.1 h e he hid
    have hdel : deleteEmployee id .ok w =
        (.json 200 (.message "Employee deleted successfully"),
          { w with
            db := { w.db with employees := w.db.employees.filter fun e => !(e.id == id) }
            dbCalls := w.dbCalls + 1 }) := by
      simp only [deleteEmployee, poolQuery, deleteEmployeeRows, if_neg h]
    rw [hdel]
    refine ⟨rfl, w.db.employees.filter (fun e => !(e.id == id)), rfl, fun e => ?_⟩
    simp [List.mem_filter]
  · simp only [deleteAttendance, poolQuery, deleteAttendanceRows]
    split_ifs with h
    · simpa [Reply.status] using hA.1 h
    · simpa [Reply.status] using fun hall => h (hA.2 hall)
  · rintro ⟨a, ha, hid⟩
    have h : ¬ ((w.db.attendance.filter fun x => x.id == id).length == 0) = true :=
      fun h => hA.1 h a ha hid
    simp only [deleteAttendance, poolQuery, deleteAttendanceRows, if_neg h, Reply.status]
  · simp only [deleteOvertime, poolQuery, deleteOvertimeRows]
    split_ifs with h
    · simpa [Reply.status] using hO.1 h
    · simpa [Reply.status] using fun hall => h (hO.2 hall)
  · rintro ⟨o, ho, hid⟩
    have h : ¬ ((w.db.overtime.filter fun x => x.id == id).length == 0) = true :=
      fun h => hO.1 h o ho hid
    simp only [deleteOvertime, poolQuery, deleteOvertimeRows, if_neg h, Reply.status]

/-- Row by row, the update statement changes the status of the target rows
only. -/
theorem update_rows_statusOnly (id : Int) (status : JsVal) (l : List AttendanceRecord) :
    List.Forall₂ (StatusOnly id status) l
      (l.map fun a => if a.id == id then { a with status := status } else a) := by
  induction l with
  | nil => exact List.Forall₂.nil
  | cons a l ih =>
    refine List.Forall₂.cons ?_ ih
    by_cases h : a.id = id
    · simp [StatusOnly, h]
    · simp [StatusOnly, h]

/-- What a served `PUT /attendance/:id` does for a status the driver writes as
the cell `cell`: with a record of that id the answer is 200 and the rows with
that id get `cell` as their status, nothing else changing; without one the
answer is 404 and the tables are unchanged. -/
theorem putAttendance_stores_bound (id : Int) (status cell : JsVal) (w : World)
    (h : status.truthy = true) (hb : bindParam status = some cell) :
    ((∃ a ∈ w.db.attendance, a.id = id) →
        (putAttendance id ⟨status⟩ .ok w).1 =
          .json 200 (.message "Attendance updated successfully!") ∧
        List.Forall₂ (StatusOnly id cell) w.db.attendance
          (putAttendance id ⟨status⟩ .ok w).2.db.attendance ∧
        (putAttendance id ⟨status⟩ .ok w).2.db.employees = w.db.employees ∧
        (putAttendance id ⟨status⟩ .ok w).2.db.overtime = w.db.overtime) ∧
      ((∀ a ∈ w.db.attendance, a.id ≠ id) →
        (putAttendance id ⟨status⟩ .ok w).1 =
          .json 404 (.error "Attendance record not found" none) ∧
        (putAttendance id ⟨status⟩ .ok w).2.db = w.db) := by
  have hA := affected_zero_iff (fun a : AttendanceRecord => a.id) id w.db.attendance
  have hq := poolQuery_ok (updateAttendanceStatus status id) w
    (w.db.attendance.filter fun a => a.id == id).length
    { w.db with attendance := w.db.attendance.map fun a =>
        if a.id == id then { a with status := cell } else a }
    (by simp only [updateAttendanceStatus, hb])
  constructor
  · rintro ⟨a, ha, hid⟩
    have hz : ¬ ((w.db.attendance.filter fun x => x.id == id).length == 0) = true :=
      fun hz => hA.1 hz a ha hid
    have hput : putAttendance id ⟨status⟩ .ok w =
        (.json 200 (.message "Attendance updated successfully!"),
          { w with
            db := { w.db with attendance := w.db.attendance.map fun a =>
              if a.id == id then { a with status := cell } else a }
            dbCalls := w.dbCalls + 1 }) := by
      simp only [putAttendance, h, Bool.not_true, Bool.false_eq_true, if_false, hq, if_neg hz]
    rw [hput]
    exact ⟨rfl, update_rows_statusOnly id cell w.db.attendance, rfl, rfl⟩
  · intro hall
    have hz : ((w.db.attendance.filter fun x => x.id == id).length == 0) = true := hA.2 hall
    have hmap : (w.db.attendance.map fun a =>
        if a.id == id then { a with status := cell } else a) = w.db.attendance := by
      conv_rhs => rw [← List.map_id w.db.attendance]
      refine List.map_congr_left fun a ha => ?_
      simp [hall a ha]
    have hput : putAttendance id ⟨status⟩ .ok w =
        (.json 404 (.error "Attendance record not found" none),
          { w with db := { w.db with attendance := w.db.attendance },
                   dbCalls := w.dbCalls + 1 }) := by
      simp only [putAttendance, h, Bool.not_true, Bool.false_eq_true, if_false, hq, if_pos hz,
        hmap]
    rw [hput]
    exact ⟨rfl, rfl⟩

/-- C6 (as stated, fails): `PUT /attendance/3` with the truthy status `true` on
the sample tables is answered with 200, and the status of record 3 becomes the
number 1, which the driver's `true` is held as, not the submitted value. -/
theorem putAttendance_true_is_stored_as_one :
    (JsVal.bool true).truthy = true ∧
      (putAttendance 3 ⟨.bool true⟩ .ok (idle sampleDb)).1 =
        .json 200 (.message "Attendance updated successfully!") ∧
      (putAttendance 3 ⟨.bool true⟩ .ok (idle sampleDb)).2.db.attendance =
        [⟨1, .num 1, .str "2024-01-01", .str "Present"⟩,
         ⟨2, .num 1, .str "2024-01-02", .str "Present"⟩,
         ⟨3, .num 1, .str "2024-01-03", .num 1⟩,
         ⟨4, .num 1, .str "2024-01-04", .str "On Leave"⟩] ∧
      ∀ a ∈ (putAttendance 3 ⟨.bool true⟩ .ok (idle sampleDb)).2.db.attendance,
        a.status ≠ .bool true := by
  decide

/-- C6 (amended): for `PUT /attendance/:id` with a truthy status that is a
string or a number, the statement succeeding: if a record with that id exists
the answer is 200, and row by row the attendance table keeps every key,
employee and date, gives the submitted status to the rows with that id and
leaves every other row as it was, the other tables being untouched; if no
record has that id the answer is 404 and all tables are unchanged. -/
theorem putAttendance_changes_only_target (id : Int) (status : JsVal) (w : World)
    (h : status.truthy = true) (hs : status.isStringOrNumber = true) :
    ((∃ a ∈ w.db.attendance, a.id = id) →
        (putAttendance id ⟨status⟩ .ok w).1 =
          .json 200 (.message "Attendance updated successfully!") ∧
        List.Forall₂ (StatusOnly id status) w.db.attendance
          (putAttendance id ⟨status⟩ .ok w).2.db.attendance ∧
        (putAttendance id ⟨status⟩ .ok w).2.db.employees = w.db.employees ∧
        (putAttendance id ⟨status⟩ .ok w).2.db.overtime = w.db.overtime) ∧
      ((∀ a ∈ w.db.attendance, a.id ≠ id) →
        (putAttendance id ⟨status⟩ .ok w).1 =
          .json 404 (.error "Attendance record not found" none) ∧
        (putAttendance id ⟨status⟩ .ok w).2.db = w.db) :=
  putAttendance_stores_bound id status status w h (bindParam_of_isStringOrNumber status hs)

/-- C6 (amended) at record 3 of the sample tables and the status `Present`. -/
theorem putAttendance_changes_only_target_witness :
    ((∃ a ∈ (idle sampleDb).db.attendance, a.id = 3) →
        (putAttendance 3 ⟨.str "Present"⟩ .ok (idle sampleDb)).1 =
          .json 200 (.message "Attendance updated successfully!") ∧
        List.Forall₂ (StatusOnly 3 (.str "Present")) (idle sampleDb).db.attendance
          (putAttendance 3 ⟨.str "Present"⟩ .ok (idle sampleDb)).2.db.attendance ∧
        (putAttendance 3 ⟨.str "Present"⟩ .ok (idle sampleDb)).2.db.employees =
          (idle sampleDb).db.employees ∧
        (putAttendance 3 ⟨.str "Present"⟩ .ok (idle sampleDb)).2.db.overtime =
          (idle sampleDb).db.overtime) ∧
      ((∀ a ∈ (idle sampleDb).db.attendance, a.id ≠ 3) →
        (putAttendance 3 ⟨.str "Present"⟩ .ok (idle sampleDb)).1 =
          .json 404 (.error "Attendance record not found" none) ∧
        (putAttendance 3 ⟨.str "Present"⟩ .ok (idle sampleDb)).2.db = (idle sampleDb).db) :=
  putAttendance_changes_only_target 3 (.str "Present") (idle sampleDb) (by decide) (by decide)

/-- Membership in an inner join. -/
theorem mem_innerJoin {α β : Type} (ls : List α) (rs : List β) (cond : α → β → Bool)
    (a : α) (b : β) :
    (a, b) ∈ innerJoin ls rs cond ↔ a ∈ ls ∧ b ∈ rs ∧ cond a b = true := by
  simp only [innerJoin, List.mem_flatMap, List.mem_map, List.mem_filter, Prod.mk.injEq]
  constructor
  · rintro ⟨l, hl, r, ⟨hr, hc⟩, rfl, rfl⟩
    exact ⟨hl, hr, hc⟩
  · rintro ⟨hl, hr, hc⟩
    exact ⟨a, hl, b, ⟨hr, hc⟩, rfl, rfl⟩

/-- C4 (as stated, fails): with no employee row of id 1 the example request
succeeds and the following `GET /attendance` lists no row at all; and with
employee 1 present, a request whose truthy status is `true` succeeds and no
listed row has that status, the record being held with status 1. -/
theorem post_for_unknown_employee_not_listed :
    ((postAttendance sampleAttendance .ok (idle emptyDb)).1 =
        .json 200 (.message "Attendance added successfully") ∧
      (getAttendance .ok (postAttendance sampleAttendance .ok (idle emptyDb)).2).1 =
        .json 200 (.attendance [])) ∧
    ((postAttendance ⟨.num 1, .str "2024-01-01", .bool true⟩ .ok (idle sampleDb)).1 =
        .json 200 (.message "Attendance added successfully") ∧
      ∃ rows, (getAttendance .ok
          (postAttendance ⟨.num 1, .str "2024-01-01", .bool true⟩ .ok (idle sampleDb)).2).1 =
          .json 200 (.attendance rows) ∧
        ∀ v ∈ rows, v.status ≠ .bool true) := by
  refine ⟨by decide, by decide, ?_⟩
  refine ⟨(selectAttendance (postAttendance ⟨.num 1, .str "2024-01-01", .bool true⟩ .ok
    (idle sampleDb)).2.db), rfl, ?_⟩
  intro v hv
  rw [selectAttendance, (List.perm_insertionSort _ _).mem_iff] at hv
  revert v
  decide

/-- C4 (amended): when `POST /attendance` succeeds with `employee_id`, `date`
and `status` truthy strings or numbers, and some employee row has the id the
body's `employee_id` equals, the following `GET /attendance` returns a row
with that date, that status and that employee's name. -/
theorem posted_attendance_is_listed (body : AttendanceBody) (w : World) (e : Employee)
    (h1 : body.employee_id.truthy = true) (h2 : body.date.truthy = true)
    (h3 : body.status.truthy = true)
    (s1 : body.employee_id.isStringOrNumber = true) (s2 : body.date.isStringOrNumber = true)
    (s3 : body.status.isStringOrNumber = true)
    (he : e ∈ w.db.employees) (hid : sqlEqId body.employee_id e.id = true) :
    (postAttendance body .ok w).1 = .json 200 (.message "Attendance added successfully") ∧
      ∃ rows, (getAttendance .ok (postAttendance body .ok w).2).1 =
          .json 200 (.attendance rows) ∧
        ∃ v ∈ rows, v.date = body.date ∧ v.status = body.status ∧
          v.employee_name = e.name := by
  have hins : insertAttendance body.employee_id body.date body.status w.db =
      some (w.db.nextAttendanceId,
        { w.db with
          attendance := w.db.attendance ++
            [⟨w.db.nextAttendanceId, body.employee_id, body.date, body.status⟩]
          nextAttendanceId := w.db.nextAttendanceId + 1 }) := by
    simp only [insertAttendance, bindParam_of_isStringOrNumber _ s1,
      bindParam_of_isStringOrNumber _ s2, bindParam_of_isStringOrNumber _ s3]
  have hpost : postAttendance body .ok w =
      (.json 200 (.message "Attendance added successfully"),
        release { w with
          db := { w.db with
            attendance := w.db.attendance ++
              [⟨w.db.nextAttendanceId, body.employee_id, body.date, body.status⟩]
            nextAttendanceId := w.db.nextAttendanceId + 1 }
          checkedOut := w.checkedOut + 1
          dbCalls := w.dbCalls + 1 + 1 }) := by
    simp only [postAttendance, h1, h2, h3, Bool.not_true, Bool.or_self, Bool.false_eq_true,
      if_false, getConnection]
    rw [connectionQuery_ok (insertAttendance body.employee_id body.date body.status)
      { w with checkedOut := w.checkedOut + 1, dbCalls := w.dbCalls + 1 } _ _ hins]
  rw [hpost]
  refine ⟨rfl, _, rfl, ⟨w.db.nextAttendanceId, e.name, body.date, body.status⟩, ?_, rfl, rfl, rfl⟩
  simp only [selectAttendance, release]
  rw [(List.perm_insertionSort _ _).mem_iff, List.mem_map]
  refine ⟨(⟨w.db.nextAttendanceId, body.employee_id, body.date, body.status⟩, e), ?_, rfl⟩
  rw [mem_innerJoin]
  exact ⟨by simp, he, hid⟩

/-- C4 (amended) at the example request, employee 1 being present. -/
theorem posted_attendance_is_listed_witness :
    (postAttendance sampleAttendance .ok (idle sampleDb)).1 =
        .json 200 (.message "Attendance added successfully") ∧
      ∃ rows, (getAttendance .ok (postAttendance sampleAttendance .ok (idle sampleDb)).2).1 =
          .json 200 (.attendance rows) ∧
        ∃ v ∈ rows, v.date = sampleAttendance.date ∧ v.status = sampleAttendance.status ∧
          v.employee_name = (⟨1, .str "X", .str "E1", .str "Ops", .str "Clerk"⟩ : Employee).name :=
  posted_attendance_is_listed sampleAttendance (idle sampleDb)
    ⟨1, .str "X", .str "E1", .str "Ops", .str "Clerk"⟩ (by decide) (by decide) (by decide)
    (by decide) (by decide) (by decide) (by decide) (by decide)

/-- C1 (fails on the code): for employee X with attendance `Present, Present,
Absent, On Leave` and overtime hours 2 and 3, the row the specification
describes is `2, 1, 1, 5`, and `GET /report` answers the row
`total_present = 4, total_absent = 2, total_leave = 2, total_overtime = 20`:
every attendance row is joined with every overtime row before the groups are
counted and summed. -/
theorem report_counts_are_multiplied :
    specReportRow sampleDb ⟨1, .str "X", .str "E1", .str "Ops", .str "Clerk"⟩ =
        ⟨1, .str "X", 2, 1, 1, 5⟩ ∧
      (getReport .ok (idle sampleDb)).1 =
        .json 200 (.report [⟨1, .str "X", 4, 2, 2, 20⟩]) := by
  decide

/-- Membership in a left join. -/
theorem mem_leftJoin {α β : Type} (ls : List α) (rs : List β) (cond : α → β → Bool)
    (l : α) (r : Option β) :
    (l, r) ∈ leftJoin ls rs cond ↔
      l ∈ ls ∧ ((r = none ∧ rs.filter (cond l) = []) ∨
        ∃ x, r = some x ∧ x ∈ rs ∧ cond l x = true) := by
  simp only [leftJoin, List.mem_flatMap]
  constructor
  · rintro ⟨l0, hl0, hmem⟩
    cases hf : rs.filter (cond l0) with
    | nil =>
      rw [hf] at hmem
      simp only [List.mem_singleton, Prod.mk.injEq] at hmem
      obtain ⟨rfl, rfl⟩ := hmem
      exact ⟨hl0, Or.inl ⟨rfl, hf⟩⟩
    | cons m ms =>
      rw [hf] at hmem
      simp only [List.mem_map, Prod.mk.injEq] at hmem
      obtain ⟨x, hx, rfl, rfl⟩ := hmem
      rw [← hf, List.mem_filter] at hx
      exact ⟨hl0, Or.inr ⟨x, rfl, hx.1, hx.2⟩⟩
  · rintro ⟨hl, h⟩
    refine ⟨l, hl, ?_⟩
    rcases h with ⟨rfl, hf⟩ | ⟨x, rfl, hx, hc⟩
    · rw [hf]; simp
    · have hxm : x ∈ rs.filter (cond l) := List.mem_filter.2 ⟨hx, hc⟩
      cases hf : rs.filter (cond l) with
      | nil => rw [hf] at hxm; simp at hxm
      | cons m ms =>
        rw [hf] at hxm
        exact List.mem_map.2 ⟨x, hxm, rfl⟩

/-- Every left row survives a left join. -/
theorem exists_mem_leftJoin {α β : Type} (ls : List α) (rs : List β) (cond : α → β → Bool)
    (l : α) (hl : l ∈ ls) : ∃ r, (l, r) ∈ leftJoin ls rs cond := by
  cases hf : rs.filter (cond l) with
  | nil => exact ⟨none, (mem_leftJoin ls rs cond l none).2 ⟨hl, Or.inl ⟨rfl, hf⟩⟩⟩
  | cons m ms =>
    have hm : m ∈ rs.filter (cond l) := by rw [hf]; simp
    rw [List.mem_filter] at hm
    exact ⟨some m, (mem_leftJoin ls rs cond l (some m)).2 ⟨hl, Or.inr ⟨m, rfl, hm.1, hm.2⟩⟩⟩

/-- What a joined row of the report statements is made of. -/
theorem mem_joinedRows (db : Db) (r : Joined) (h : r ∈ joinedRows db) :
    r.e ∈ db.employees ∧
      (∀ a, r.a = some a → a ∈ db.attendance ∧ sqlEqId a.employee_id r.e.id = true) ∧
      (∀ o, r.o = some o → o ∈ db.overtime ∧ sqlEqId o.employee_id r.e.id = true) := by
  simp only [joinedRows, List.mem_map] at h
  obtain ⟨⟨⟨e, a⟩, o⟩, hmem, rfl⟩ := h
  rw [mem_leftJoin] at hmem
  obtain ⟨hea, ho⟩ := hmem
  rw [mem_leftJoin] at hea
  obtain ⟨he, ha⟩ := hea
  refine ⟨he, fun a0 h0 => ?_, fun o0 h0 => ?_⟩
  · rcases ha with ⟨rfl, _⟩ | ⟨x, rfl, hx, hc⟩
    · simp at h0
    · simp only [Option.some.injEq] at h0
      subst h0
      exact ⟨hx, hc⟩
  · rcases ho with ⟨rfl, _⟩ | ⟨x, rfl, hx, hc⟩
    · simp at h0
    · simp only [Option.some.injEq] at h0
      subst h0
      exact ⟨hx, hc⟩

/-- Every employee has a joined row. -/
theorem exists_joinedRow (db : Db) (e : Employee) (he : e ∈ db.employees) :
    ∃ r ∈ joinedRows db, r.e = e := by
  obtain ⟨a, ha⟩ := exists_mem_leftJoin db.employees db.attendance
    (fun e a => sqlEqId a.employee_id e.id) e he
  obtain ⟨o, ho⟩ := exists_mem_leftJoin _ db.overtime
    (fun (ea : Employee × Option AttendanceRecord) o => sqlEqId o.employee_id ea.1.id) (e, a) ha
  exact ⟨⟨e, a, o⟩, List.mem_map.2 ⟨((e, a), o), ho, rfl⟩, rfl⟩

/-- The grouping keys of the report are the `(id, name)` pairs of the
employees. -/
theorem mem_groupKeys (db : Db) (k : Int × JsVal) :
    k ∈ ((joinedRows db).map groupKey).dedup ↔ ∃ e ∈ db.employees, (e.id, e.name) = k := by
  rw [List.mem_dedup, List.mem_map]
  constructor
  · rintro ⟨r, hr, rfl⟩
    exact ⟨r.e, (mem_joinedRows db r hr).1, rfl⟩
  · rintro ⟨e, he, rfl⟩
    obtain ⟨r, hr, rfl⟩ := exists_joinedRow db e he
    exact ⟨r, hr, rfl⟩

/-- With distinct employee keys the grouping keys are, up to order, the
`(id, name)` pairs of the employee rows. -/
theorem groupKeys_perm (db : Db) (hkey : (db.employees.map (·.id)).Nodup) :
    (((joinedRows db).map groupKey).dedup).Perm
      (db.employees.map fun e => (e.id, e.name)) := by
  have hnd : (db.employees.map fun e => (e.id, e.name)).Nodup := by
    refine List.Nodup.of_map Prod.fst ?_
    simpa [List.map_map, Function.comp_def] using hkey
  rw [List.perm_ext_iff_of_nodup (List.nodup_dedup _) hnd]
  intro k
  rw [mem_groupKeys, List.mem_map]

/-- The group of an employee without attendance and overtime rows aggregates
to zeros. -/
theorem aggregate_of_unmatched (db : Db) (e : Employee)
    (ha : ∀ a ∈ db.attendance, sqlEqId a.employee_id e.id = false)
    (ho : ∀ o ∈ db.overtime, sqlEqId o.employee_id e.id = false) :
    aggregate (joinedRows db) (e.id, e.name) = ⟨e.id, e.name, 0, 0, 0, 0⟩ := by
  have hrow : ∀ r ∈ (joinedRows db).filter (fun r => groupKey r == (e.id, e.name)),
      r.a = none ∧ r.o = none := by
    intro r hr
    rw [List.mem_filter] at hr
    obtain ⟨hmem, hk⟩ := hr
    have hid : r.e.id = e.id := by
      have := beq_iff_eq.1 hk
      simp only [groupKey, Prod.mk.injEq] at this
      exact this.1
    obtain ⟨_, hA, hO⟩ := mem_joinedRows db r hmem
    constructor
    · cases hra : r.a with
      | none => rfl
      | some a =>
        obtain ⟨ham, hc⟩ := hA a hra
        rw [hid, ha a ham] at hc
        exact absurd hc (by simp)
    · cases hro : r.o with
      | none => rfl
      | some o =>
        obtain ⟨hom, hc⟩ := hO o hro
        rw [hid, ho o hom] at hc
        exact absurd hc (by simp)
  have hcount : ∀ s, countStatus s
      ((joinedRows db).filter fun r => groupKey r == (e.id, e.name)) = 0 := by
    intro s
    unfold countStatus
    rw [List.countP_eq_zero]
    intro r hr
    simp [(hrow r hr).1]
  have hsum : sumHours ((joinedRows db).filter fun r => groupKey r == (e.id, e.name)) = 0 := by
    unfold sumHours sqlSum
    have hnil : (((joinedRows db).filter fun r => groupKey r == (e.id, e.name)).map
        fun r => r.o.bind fun o => sqlNum o.hours).filterMap id = [] := by
      rw [List.filterMap_eq_nil_iff]
      intro x hx
      rw [List.mem_map] at hx
      obtain ⟨r, hr, rfl⟩ := hx
      simp [(hrow r hr).2]
    rw [hnil]
    rfl
  simp only [aggregate, hcount, hsum]

/-- C2: when `GET /report` succeeds on tables whose employee keys are distinct,
the rows it returns carry, up to order, exactly the employee ids of the
employees table, one row each, and the row of an employee without attendance
and overtime rows has `total_present`, `total_absent`, `total_leave` and
`total_overtime` all equal to 0. -/
theorem report_one_row_per_employee (w : World)
    (hkey : (w.db.employees.map (·.id)).Nodup) :
    ∃ rows, (getReport .ok w).1 = .json 200 (.report rows) ∧
      (rows.map (·.employee_id)).Perm (w.db.employees.map (·.id)) ∧
      ∀ e ∈ w.db.employees,
        (∀ a ∈ w.db.attendance, sqlEqId a.employee_id e.id = false) →
        (∀ o ∈ w.db.overtime, sqlEqId o.employee_id e.id = false) →
        (⟨e.id, e.name, 0, 0, 0, 0⟩ : ReportRow) ∈ rows := by
  refine ⟨reportQuery w.db, rfl, ?_, ?_⟩
  · have hsort := List.perm_insertionSort
      (fun x y : ReportRow => cellLe x.employee_name y.employee_name = true)
      ((((joinedRows w.db).map groupKey).dedup).map (aggregate (joinedRows w.db)))
    have h1 := hsort.map (·.employee_id)
    have h2 : ((((joinedRows w.db).map groupKey).dedup).map
        (aggregate (joinedRows w.db))).map (·.employee_id) =
        (((joinedRows w.db).map groupKey).dedup).map Prod.fst := by
      rw [List.map_map]
      rfl
    have h3 := (groupKeys_perm w.db hkey).map Prod.fst
    have h4 : (w.db.employees.map fun e => (e.id, e.name)).map Prod.fst =
        w.db.employees.map (·.id) := by
      rw [List.map_map]
      rfl
    rw [h4] at h3
    rw [h2] at h1
    exact h1.trans h3
  · intro e he ha ho
    have hk : (e.id, e.name) ∈ ((joinedRows w.db).map groupKey).dedup :=
      (mem_groupKeys w.db _).2 ⟨e, he, rfl⟩
    have hmem : aggregate (joinedRows w.db) (e.id, e.name) ∈
        (((joinedRows w.db).map groupKey).dedup).map (aggregate (joinedRows w.db)) :=
      List.mem_map.2 ⟨_, hk, rfl⟩
    rw [aggregate_of_unmatched w.db e ha ho] at hmem
    exact (List.perm_insertionSort _ _).mem_iff.2 hmem

/-- C2 at tables with employee X, who has rows, and employee Y, who has
none. -/
theorem report_one_row_per_employee_witness :
    ∃ rows, (getReport .ok (idle staffDb)).1 = .json 200 (.report rows) ∧
      (rows.map (·.employee_id)).Perm ((idle staffDb).db.employees.map (·.id)) ∧
      ∀ e ∈ (idle staffDb).db.employees,
        (∀ a ∈ (idle staffDb).db.attendance, sqlEqId a.employee_id e.id = false) →
        (∀ o ∈ (idle staffDb).db.overtime, sqlEqId o.employee_id e.id = false) →
        (⟨e.id, e.name, 0, 0, 0, 0⟩ : ReportRow) ∈ rows :=
  report_one_row_per_employee (idle staffDb) (by decide)

/-- A left join, written with `optRows`. -/
theorem leftJoin_eq_flatMap {α β : Type} (ls : List α) (rs : List β) (cond : α → β → Bool) :
    leftJoin ls rs cond =
      ls.flatMap fun l => (optRows (rs.filter (cond l))).map fun r => (l, r) := by
  unfold leftJoin
  congr 1
  funext l
  cases h : rs.filter (cond l) with
  | nil => rfl
  | cons m ms => simp [optRows]

/-- The joined rows, employee by employee. -/
theorem joinedRows_eq_flatMap (db : Db) :
    joinedRows db = db.employees.flatMap (rowsOf db) := by
  unfold joinedRows
  rw [leftJoin_eq_flatMap, leftJoin_eq_flatMap, List.flatMap_assoc, List.map_flatMap]
  congr 1
  funext e
  simp only [rowsOf, attendanceOf, overtimeOf, List.flatMap_map, List.map_flatMap,
    List.map_map]
  rfl

/-- Every joined row of an employee carries that employee. -/
theorem rowsOf_e (db : Db) (e : Employee) (r : Joined) (h : r ∈ rowsOf db e) : r.e = e := by
  simp only [rowsOf, List.mem_flatMap, List.mem_map] at h
  obtain ⟨a, _, o, _, rfl⟩ := h
  rfl

/-- With distinct employee keys the group of a key is the rows of its
employee. -/
theorem group_eq_rowsOf (db : Db) (e : Employee) (es : List Employee)
    (hkey : (es.map (·.id)).Nodup) (he : e ∈ es) :
    (es.flatMap (rowsOf db)).filter (fun r => groupKey r == (e.id, e.name)) = rowsOf db e := by
  have hself : ∀ e0 : Employee, e0.id = e.id → e0.name = e.name →
      (rowsOf db e0).filter (fun r => groupKey r == (e.id, e.name)) = rowsOf db e0 := by
    intro e0 h1 h2
    rw [List.filter_eq_self]
    intro r hr
    simp [groupKey, rowsOf_e db e0 r hr, h1, h2]
  have hother : ∀ e0 : Employee, e0.id ≠ e.id →
      (rowsOf db e0).filter (fun r => groupKey r == (e.id, e.name)) = [] := by
    intro e0 h1
    rw [List.filter_eq_nil_iff]
    intro r hr
    simp [groupKey, rowsOf_e db e0 r hr, h1]
  induction es with
  | nil => simp at he
  | cons e0 es ih =>
    rw [List.map_cons, List.nodup_cons] at hkey
    obtain ⟨hnot, hnd⟩ := hkey
    rw [List.flatMap_cons, List.filter_append]
    rcases List.mem_cons.1 he with rfl | hmem
    · rw [hself e rfl rfl]
      have hrest : (es.flatMap (rowsOf db)).filter
          (fun r => groupKey r == (e.id, e.name)) = [] := by
        rw [List.filter_eq_nil_iff]
        intro r hr
        rw [List.mem_flatMap] at hr
        obtain ⟨e1, he1, hr1⟩ := hr
        have hne : e1.id ≠ e.id := fun h => hnot (List.mem_map.2 ⟨e1, he1, h⟩)
        simp [groupKey, rowsOf_e db e1 r hr1, hne]
      rw [hrest, List.append_nil]
    · have hne : e0.id ≠ e.id := fun h => hnot (List.mem_map.2 ⟨e, hmem, h.symm⟩)
      rw [hother e0 hne, List.nil_append]
      exact ih hnd hmem

/-- Length of the right-hand side of a left join for one left row. -/
theorem optRows_length {β : Type} (ms : List β) : (optRows ms).length = max 1 ms.length := by
  cases ms with
  | nil => rfl
  | cons m ms =>
    simp only [optRows, List.length_map, List.length_cons]
    omega

/-- Counting over the product of two optional row lists by a test on the
first. -/
theorem countP_product (e : Employee) (q : Option AttendanceRecord → Bool)
    (la : List (Option AttendanceRecord)) (lo : List (Option OvertimeEntry)) :
    (la.flatMap fun a => lo.map fun o => (⟨e, a, o⟩ : Joined)).countP (fun r => q r.a) =
      la.countP q * lo.length := by
  induction la with
  | nil => simp
  | cons a la ih =>
    rw [List.flatMap_cons, List.countP_append, ih, List.countP_cons, List.countP_map]
    have hconst : (lo.countP ((fun r : Joined => q r.a) ∘ fun o => (⟨e, a, o⟩ : Joined))) =
        if q a = true then lo.length else 0 := by
      by_cases hq : q a = true
      · rw [if_pos hq, List.countP_eq_length]
        intro o _
        simpa using hq
      · rw [if_neg hq, List.countP_eq_zero]
        intro o _
        simpa using hq
    rw [hconst]
    by_cases hq : q a = true
    · simp only [hq, if_true]
      ring
    · simp only [hq, if_false]
      simp

/-- Counting a status over the optional attendance rows. -/
theorem countP_optRows (s : String) (ms : List AttendanceRecord) :
    (optRows ms).countP (fun a : Option AttendanceRecord =>
        match a with
        | some a => a.status == JsVal.str s
        | none => false) =
      ms.countP fun a => a.status == JsVal.str s := by
  cases ms with
  | nil => rfl
  | cons m ms =>
    simp only [optRows, List.countP_map]
    rfl

/-- The report's count of a status for an employee is the employee's count
times the number of joined overtime rows. -/
theorem countStatus_rowsOf (db : Db) (e : Employee) (s : String) :
    countStatus s (rowsOf db e) =
      ((attendanceOf db e).countP fun a => a.status == JsVal.str s) *
        max 1 (overtimeOf db e).length := by
  unfold countStatus rowsOf
  rw [countP_product e (fun a : Option AttendanceRecord =>
        match a with
        | some a => a.status == JsVal.str s
        | none => false), countP_optRows, optRows_length]

/-- `COALESCE(SUM(..), 0)` is the sum of the cells that are not `NULL`. -/
theorem coalesce_sqlSum (cells : List (Option Int)) :
    coalesce (sqlSum cells) 0 = (cells.filterMap id).sum := by
  unfold coalesce sqlSum
  cases h : cells.filterMap id with
  | nil => rfl
  | cons x xs => rfl

/-- Summing a column of the second factor over the product of two optional
row lists. -/
theorem sum_product (e : Employee) (g : OvertimeEntry → Option Int)
    (la : List (Option AttendanceRecord)) (lo : List (Option OvertimeEntry)) :
    (((la.flatMap fun a => lo.map fun o => (⟨e, a, o⟩ : Joined)).map
        fun r => r.o.bind g).filterMap id).sum =
      (la.length : Int) * ((lo.map fun o => o.bind g).filterMap id).sum := by
  induction la with
  | nil => simp
  | cons a la ih =>
    rw [List.flatMap_cons, List.map_append, List.filterMap_append, List.sum_append, ih,
      List.map_map, List.length_cons]
    have hfun : ((fun r : Joined => r.o.bind g) ∘ fun o => (⟨e, a, o⟩ : Joined)) =
        fun o => o.bind g := rfl
    rw [hfun]
    push_cast
    ring

/-- The cells of a column over the optional rows are the cells of the rows. -/
theorem filterMap_optRows {β : Type} (g : β → Option Int) (ms : List β) :
    ((optRows ms).map fun o => o.bind g).filterMap id = ms.filterMap g := by
  cases ms with
  | nil => rfl
  | cons m ms =>
    simp only [optRows, List.map_map, List.filterMap_map]
    rfl

/-- The report's overtime total for an employee is the employee's sum of
hours times the number of joined attendance rows. -/
theorem sumHours_rowsOf (db : Db) (e : Employee) :
    sumHours (rowsOf db e) =
      ((overtimeOf db e).filterMap fun o => sqlNum o.hours).sum *
        max 1 (attendanceOf db e).length := by
  unfold sumHours rowsOf
  rw [coalesce_sqlSum, sum_product e (fun o => sqlNum o.hours), filterMap_optRows,
    optRows_length]
  push_cast
  ring

/-- What `GET /report` computes for an employee, next to the row the
specification describes: with distinct employee keys, each count is the
employee's count multiplied by the number of the employee's overtime rows (by
1 when there is none), and the overtime total is the employee's sum of hours
multiplied by the number of the employee's attendance rows (by 1 when there
is none). -/
theorem aggregate_eq_multiplied (db : Db) (e : Employee)
    (hkey : (db.employees.map (·.id)).Nodup) (he : e ∈ db.employees) :
    aggregate (joinedRows db) (e.id, e.name) =
      { employee_id := e.id
        employee_name := e.name
        total_present := (specReportRow db e).total_present * max 1 (overtimeOf db e).length
        total_absent := (specReportRow db e).total_absent * max 1 (overtimeOf db e).length
        total_leave := (specReportRow db e).total_leave * max 1 (overtimeOf db e).length
        total_overtime :=
          (specReportRow db e).total_overtime * max 1 (attendanceOf db e).length } := by
  simp only [aggregate, joinedRows_eq_flatMap, group_eq_rowsOf db e db.employees hkey he,
    countStatus_rowsOf, sumHours_rowsOf, specReportRow]

/-- Where the report agrees with the specification: with distinct employee
keys, the row computed for an employee who has at most one attendance row and
at most one overtime row is the row the specification describes. -/
theorem aggregate_eq_spec_of_single (db : Db) (e : Employee)
    (hkey : (db.employees.map (·.id)).Nodup) (he : e ∈ db.employees)
    (ha : (attendanceOf db e).length ≤ 1) (ho : (overtimeOf db e).length ≤ 1) :
    aggregate (joinedRows db) (e.id, e.name) = specReportRow db e := by
  rw [aggregate_eq_multiplied db e hkey he]
  have h1 : max 1 (attendanceOf db e).length = 1 := by omega
  have h2 : max 1 (overtimeOf db e).length = 1 := by omega
  rw [h1, h2]
  simp [specReportRow]

/-- The empty database has fresh keys. -/
theorem keysFresh_emptyDb : KeysFresh emptyDb := by
  simp [KeysFresh, emptyDb]

/-- Inserting an employee keeps the keys fresh. -/
theorem keysFresh_insertEmployee (a b c d : JsVal) (db : Db) (r : Int) (db1 : Db)
    (hs : insertEmployee a b c d db = some (r, db1)) (h : KeysFresh db) : KeysFresh db1 := by
  obtain ⟨hnd, hlt⟩ := h
  unfold insertEmployee at hs
  split at hs
  · rename_i n i dd g _ _ _ _
    simp only [Option.some.injEq, Prod.mk.injEq] at hs
    obtain ⟨-, rfl⟩ := hs
    constructor
    · simp only [List.map_append, List.map_cons, List.map_nil]
      rw [List.nodup_append]
      refine ⟨hnd, List.nodup_singleton _, ?_⟩
      intro x hx hx2
      rw [List.mem_singleton] at hx2
      rw [List.mem_map] at hx
      obtain ⟨e, he, rfl⟩ := hx
      have := hlt e he
      omega
    · intro e he
      simp only [List.mem_append, List.mem_singleton] at he ⊢
      rcases he with he | rfl
      · have := hlt e he
        omega
      · simp
  · simp at hs

/-- Deleting employees keeps the keys fresh. -/
theorem keysFresh_deleteEmployeeRows (id : Int) (db : Db) (r : Nat) (db1 : Db)
    (hs : deleteEmployeeRows id db = some (r, db1)) (h : KeysFresh db) : KeysFresh db1 := by
  obtain ⟨hnd, hlt⟩ := h
  simp only [deleteEmployeeRows, Option.some.injEq, Prod.mk.injEq] at hs
  obtain ⟨-, rfl⟩ := hs
  constructor
  · exact hnd.sublist ((List.filter_sublist _).map _)
  · intro e he
    exact hlt e (List.mem_filter.1 he).1

/-- A statement that leaves the employees table and its counter alone keeps
the keys fresh. -/
theorem keysFresh_of_same_employees (db db1 : Db) (he : db1.employees = db.employees)
    (hn : db1.nextEmployeeId = db.nextEmployeeId) (h : KeysFresh db) : KeysFresh db1 := by
  unfold KeysFresh at h ⊢
  rw [he, hn]
  exact h

/-- `pool.query` keeps the keys fresh when its statement does. -/
theorem keysFresh_poolQuery {ρ : Type} (out : DbOutcome) (stmt : Db → Option (ρ × Db))
    (w : World) (hs : ∀ r db1, stmt w.db = some (r, db1) → KeysFresh db1)
    (h : KeysFresh w.db) : KeysFresh (poolQuery out stmt w).2.db := by
  cases out with
  | ok =>
    simp only [poolQuery]
    cases hq : stmt w.db with
    | none => exact h
    | some p => exact hs p.1 p.2 hq
  | connectFail m => exact h
  | queryFail m => exact h

/-- `connection.query` keeps the keys fresh when its statement does. -/
theorem keysFresh_connectionQuery {ρ : Type} (out : DbOutcome)
    (stmt : Db → Option (ρ × Db)) (w : World)
    (hs : ∀ r db1, stmt w.db = some (r, db1) → KeysFresh db1)
    (h : KeysFresh w.db) : KeysFresh (connectionQuery out stmt w).2.db := by
  cases out with
  | ok =>
    simp only [connectionQuery]
    cases hq : stmt w.db with
    | none => exact h
    | some p => exact hs p.1 p.2 hq
  | connectFail m => exact h
  | queryFail m => exact h

/-- `pool.getConnection()` does not touch the tables. -/
theorem getConnection_db (out : DbOutcome) (w : World) : (getConnection out w).2.db = w.db := by
  cases out <;> rfl

/-- Every handler keeps the employee keys fresh, so the keys are distinct in
every state the service reaches from the empty database. -/
theorem keysFresh_handle (req : Request) (out : DbOutcome) (w : World)
    (h : KeysFresh w.db) : KeysFresh (handle req out w).2.db := by
  have hread : ∀ {ρ : Type} (q : Db → ρ) (w0 : World), KeysFresh w0.db →
      ∀ r db1, reading q w0.db = some (r, db1) → KeysFresh db1 := by
    intro ρ q w0 h0 r db1 hq
    simp only [reading, Option.some.injEq, Prod.mk.injEq] at hq
    obtain ⟨-, rfl⟩ := hq
    exact h0
  cases req with
  | getEmployees =>
    have hq := keysFresh_poolQuery out (reading selectEmployees) w (hread _ w h) h
    simp only [handle, getEmployees]
    generalize poolQuery out (reading selectEmployees) w = q at hq ⊢
    obtain ⟨r | r, w1⟩ := q <;> exact hq
  | postEmployees body =>
    have hq := keysFresh_poolQuery out
      (insertEmployee body.name body.employee_id body.department body.designation) w
      (fun r db1 hs => keysFresh_insertEmployee _ _ _ _ _ r db1 hs h) h
    simp only [handle, postEmployees]
    generalize poolQuery out
      (insertEmployee body.name body.employee_id body.department body.designation) w = q
      at hq ⊢
    obtain ⟨r | r, w1⟩ := q <;> exact hq
  | deleteEmployee id =>
    have hq := keysFresh_poolQuery out (deleteEmployeeRows id) w
      (fun r db1 hs => keysFresh_deleteEmployeeRows _ _ r db1 hs h) h
    simp only [handle, deleteEmployee]
    generalize poolQuery out (deleteEmployeeRows id) w = q at hq ⊢
    obtain ⟨r | r, w1⟩ := q
    · exact hq
    · simp only []
      split_ifs <;> exact hq
  | getAttendance =>
    have hq := keysFresh_poolQuery out (reading selectAttendance) w (hread _ w h) h
    simp only [handle, getAttendance]
    generalize poolQuery out (reading selectAttendance) w = q at hq ⊢
    obtain ⟨r | r, w1⟩ := q <;> exact hq
  | postAttendance body =>
    simp only [handle, postAttendance]
    split_ifs
    · exact h
    · have hc : KeysFresh (getConnection out w).2.db := by
        rw [getConnection_db]
        exact h
      generalize getConnection out w = c at hc ⊢
      obtain ⟨r | r, w1⟩ := c
      · exact hc
      · have hq := keysFresh_connectionQuery out
          (insertAttendance body.employee_id body.date body.status) w1
          (fun r db1 hs => by
            unfold insertAttendance at hs
            split at hs
            · simp only [Option.some.injEq, Prod.mk.injEq] at hs
              obtain ⟨-, rfl⟩ := hs
              exact keysFresh_of_same_employees _ _ rfl rfl hc
            · simp at hs) hc
        simp only []
        generalize connectionQuery out
          (insertAttendance body.employee_id body.date body.status) w1 = q at hq ⊢
        obtain ⟨r | r, w2⟩ := q <;> exact hq
  | putAttendance id body =>
    simp only [handle, putAttendance]
    split_ifs
    · exact h
    · have hq := keysFresh_poolQuery out (updateAttendanceStatus body.status id) w
        (fun r db1 hs => by
          unfold updateAttendanceStatus at hs
          split at hs
          · simp only [Option.some.injEq, Prod.mk.injEq] at hs
            obtain ⟨-, rfl⟩ := hs
            exact keysFresh_of_same_employees _ _ rfl rfl h
          · simp at hs) h
      generalize poolQuery out (updateAttendanceStatus body.status id) w = q at hq ⊢
      obtain ⟨r | r, w1⟩ := q
      · exact hq
      · simp only []
        split_ifs <;> exact hq
  | deleteAttendance id =>
    have hq := keysFresh_poolQuery out (deleteAttendanceRows id) w
      (fun r db1 hs => by
        simp only [deleteAttendanceRows, Option.some.injEq, Prod.mk.injEq] at hs
        obtain ⟨-, rfl⟩ := hs
        exact keysFresh_of_same_employees _ _ rfl rfl h) h
    simp only [handle, deleteAttendance]
    generalize poolQuery out (deleteAttendanceRows id) w = q at hq ⊢
    obtain ⟨r | r, w1⟩ := q
    · exact hq
    · simp only []
      split_ifs <;> exact hq
  | getOvertime =>
    have hq := keysFresh_poolQuery out (reading selectOvertime) w (hread _ w h) h
    simp only [handle, getOvertime]
    generalize poolQuery out (reading selectOvertime) w = q at hq ⊢
    obtain ⟨r | r, w1⟩ := q <;> exact hq
  | postOvertime body =>
    simp only [handle, postOvertime]
    split_ifs
    · exact h
    · have hq := keysFresh_poolQuery out
        (insertOvertime body.employee_id body.date body.hours) w
        (fun r db1 hs => by
          unfold insertOvertime at hs
          split at hs
          · simp only [Option.some.injEq, Prod.mk.injEq] at hs
            obtain ⟨-, rfl⟩ := hs
            exact keysFresh_of_same_employees _ _ rfl rfl h
          · simp at hs) h
      generalize poolQuery out (insertOvertime body.employee_id body.date body.hours) w = q
        at hq ⊢
      obtain ⟨r | r, w1⟩ := q <;> exact hq
  | deleteOvertime id =>
    have hq := keysFresh_poolQuery out (deleteOvertimeRows id) w
      (fun r db1 hs => by
        simp only [deleteOvertimeRows, Option.some.injEq, Prod.mk.injEq] at hs
        obtain ⟨-, rfl⟩ := hs
        exact keysFresh_of_same_employees _ _ rfl rfl h) h
    simp only [handle, deleteOvertime]
    generalize poolQuery out (deleteOvertimeRows id) w = q at hq ⊢
    obtain ⟨r | r, w1⟩ := q
    · exact hq
    · simp only []
      split_ifs <;> exact hq
  | getReport =>
    simp only [handle, getReport]
    have hc : KeysFresh (getConnection out w).2.db := by
      rw [getConnection_db]
      exact h
    generalize getConnection out w = c at hc ⊢
    obtain ⟨r | r, w1⟩ := c
    · exact hc
    · have hq := keysFresh_connectionQuery out (reading reportQuery) w1 (hread _ w1 hc) hc
      simp only []
      generalize connectionQuery out (reading reportQuery) w1 = q at hq ⊢
      obtain ⟨r | r, w2⟩ := q <;> exact hq
  | getDownloadReport =>
    simp only [handle, getDownloadReport]
    have hc : KeysFresh (getConnection out w).2.db := by
      rw [getConnection_db]
      exact h
    generalize getConnection out w = c at hc ⊢
    obtain ⟨r | r, w1⟩ := c
    · exact hc
    · have hq := keysFresh_connectionQuery out (reading exportQuery) w1 (hread _ w1 hc) hc
      simp only []
      generalize connectionQuery out (reading exportQuery) w1 = q at hq ⊢
      obtain ⟨r | r, w2⟩ := q
      · exact hq
      · simp only []
        cases generatePdf r <;> exact hq

end Attendance
